import Mathlib

/-!
Verification of the `proj_zayavki` status-ingestion pipeline against its
specification.  The definitions below are a shallow embedding of the Python
sources (`project/database.py`, `project/mail_checker.py`,
`project/notifier.py`): the SQLite table becomes a list of records, the
per-call `datetime.utcnow()` becomes an explicit `now : Int` parameter
(seconds; ISO-8601 strings compare chronologically, so an integer timeline is
faithful), SQL `UPDATE ... WHERE` becomes a conditional map over the list and
`INSERT` an append, and exceptions become `Except` values returned together
with the (possibly rolled-back) store state.
-/

namespace ProjZayavki

/-- One row of the `requests` table (`database.py`, `init_db`). -/
structure RequestRecord where
  id : Nat
  request_number : String
  position_number : String
  comment : Option String
  comment_author : Option String
  status : String
  created_at : Int
  status_updated_at : Int
deriving DecidableEq, Repr

/-- `DEFAULT_STATUS` from `database.py`. -/
def DEFAULT_STATUS : String := "заявка отправлена"

/-- `ROBOT_AUTHOR` from `database.py`. -/
def ROBOT_AUTHOR : String := "Робот"

/-- Storage faults: `sqlite3.IntegrityError` (unique-key conflict) versus any
other `sqlite3.Error`. -/
inductive DBError
  | conflict
  | storage
deriving DecidableEq, Repr

/-- The unique key `(request_number, position_number)` of the table. -/
def keyMatch (req pos : String) (r : RequestRecord) : Bool :=
  r.request_number == req && r.position_number == pos

/-- Match on `request_number` alone. -/
def reqMatch (req : String) (r : RequestRecord) : Bool :=
  r.request_number == req

/-- The WHERE clause of `update_status`/`update_comment`: scoped to the exact
pair when a position is supplied, to the whole request otherwise. -/
def whereScope (req : String) (pos : Option String) (r : RequestRecord) : Bool :=
  match pos with
  | some p => keyMatch req p r
  | none => reqMatch req r

/-- SQLite AUTOINCREMENT row id for the next insert. -/
def nextId (db : List RequestRecord) : Nat :=
  (db.map (fun r => r.id)).foldr max 0 + 1

/-- The row inserted by `add_request`: default status, `created_at` and
`status_updated_at` both set to the single `_utc_now()` read. -/
def newRecord (db : List RequestRecord) (req pos c a : String) (now : Int) :
    RequestRecord :=
  { id := nextId db, request_number := req, position_number := pos,
    comment := some c, comment_author := some a, status := DEFAULT_STATUS,
    created_at := now, status_updated_at := now }

/-- `database.add_request`: inserts a fresh row; a duplicate
`(request_number, position_number)` violates the UNIQUE constraint, the
transaction rolls back (the store is returned unchanged) and the
IntegrityError propagates as `DBError.conflict`. -/
def add_request (db : List RequestRecord) (req pos c a : String) (now : Int) :
    Except DBError Nat × List RequestRecord :=
  if db.any (keyMatch req pos) then
    (Except.error DBError.conflict, db)
  else
    (Except.ok (nextId db), db ++ [newRecord db req pos c a now])

/-- `database.update_status`: `UPDATE requests SET status = ?,
status_updated_at = ? WHERE request_number = ? [AND position_number = ?]`;
returns `rowcount > 0` together with the new store state. -/
def update_status (db : List RequestRecord) (req new_status : String)
    (pos : Option String) (now : Int) : Bool × List RequestRecord :=
  let db' := db.map fun r =>
    if whereScope req pos r then
      { r with status := new_status, status_updated_at := now }
    else r
  (db.any (whereScope req pos), db')

/-- `database.update_comment`: `UPDATE requests SET comment = ?,
comment_author = ? WHERE ...` — the same scoping as `update_status`, and no
write to `status_updated_at` (the statement does not mention that column). -/
def update_comment (db : List RequestRecord) (req c : String)
    (pos : Option String) (author : String) : Bool × List RequestRecord :=
  let db' := db.map fun r =>
    if whereScope req pos r then
      { r with comment := some c, comment_author := some author }
    else r
  (db.any (whereScope req pos), db')

/-- `database.get_requests`: all rows ordered by `status_updated_at`
descending, optionally capped by `LIMIT`. -/
def get_requests (db : List RequestRecord) (limit : Option Nat) :
    List RequestRecord :=
  let sorted := List.insertionSort
    (fun a b : RequestRecord => b.status_updated_at ≤ a.status_updated_at) db
  match limit with
  | none => sorted
  | some n => sorted.take n

/-- Modelled from the spec: `database.get_delayed_requests` is called by
`notifier.notify_delays` but its definition is absent from the provided
sources; per the spec it returns the "records whose `status_updated_at` is
older than now − threshold" (strictly, with the exact boundary excluded),
the threshold being given in minutes. -/
def get_delayed_requests (db : List RequestRecord) (now : Int)
    (threshold_minutes : Int) : List RequestRecord :=
  db.filter fun r => decide (r.status_updated_at < now - 60 * threshold_minutes)

/-! Sample records used by concrete witnesses. -/

/-- A record whose status was last updated at time 39. -/
def rDelayed : RequestRecord :=
  { id := 1, request_number := "1", position_number := "1", comment := none,
    comment_author := none, status := DEFAULT_STATUS, created_at := 0,
    status_updated_at := 39 }

/-- A record whose status was last updated at time 40 (the delay boundary for
`now = 100`, threshold 1 minute). -/
def rBoundary : RequestRecord :=
  { id := 2, request_number := "2", position_number := "1", comment := none,
    comment_author := none, status := DEFAULT_STATUS, created_at := 0,
    status_updated_at := 40 }

/-- C1: `get_delayed_requests t` returns exactly the records whose
`status_updated_at` is strictly older than `now` minus `t` minutes; a record
sitting exactly on the boundary is excluded. -/
theorem get_delayed_requests_spec (db : List RequestRecord) (now t : Int) :
    (∀ r : RequestRecord, r ∈ get_delayed_requests db now t ↔
       r ∈ db ∧ r.status_updated_at < now - 60 * t) ∧
    (∀ r ∈ db, r.status_updated_at = now - 60 * t →
       r ∉ get_delayed_requests db now t) := by
  constructor
  · intro r
    simp [get_delayed_requests, List.mem_filter]
  · intro r _ heq hmem
    rw [get_delayed_requests, List.mem_filter] at hmem
    simp [heq] at hmem

/-- Witness for C1 at a concrete store: the strictly-older record is
reported, the boundary record is not. -/
theorem get_delayed_requests_spec_witness :
    rBoundary ∈ [rDelayed, rBoundary] ∧
    rBoundary.status_updated_at = 100 - 60 * 1 ∧
    rDelayed ∈ get_delayed_requests [rDelayed, rBoundary] 100 1 ∧
    rBoundary ∉ get_delayed_requests [rDelayed, rBoundary] 100 1 :=
  ⟨by decide, by decide,
   ((get_delayed_requests_spec [rDelayed, rBoundary] 100 1).1 rDelayed).mpr
     (by decide),
   (get_delayed_requests_spec [rDelayed, rBoundary] 100 1).2 rBoundary
     (by decide) (by decide)⟩

/-- C4: on a store without the key, `add_request` succeeds and a subsequent
`get_requests` contains exactly one record with that key — the freshly
inserted one, whose status is the default and whose `created_at` equals its
`status_updated_at`. -/
theorem add_request_get_requests_spec (db : List RequestRecord)
    (req pos c a : String) (now : Int)
    (hfresh : ∀ r ∈ db, keyMatch req pos r = false) :
    (add_request db req pos c a now).fst = Except.ok (nextId db) ∧
    (get_requests (add_request db req pos c a now).snd none).filter
        (keyMatch req pos) = [newRecord db req pos c a now] ∧
    (newRecord db req pos c a now).status = DEFAULT_STATUS ∧
    (newRecord db req pos c a now).created_at =
      (newRecord db req pos c a now).status_updated_at := by
  have hany : db.any (keyMatch req pos) = false := by
    rw [← Bool.not_eq_true, List.any_eq_true]
    rintro ⟨r, hr, hk⟩
    rw [hfresh r hr] at hk
    exact Bool.false_ne_true hk
  have hnew : keyMatch req pos (newRecord db req pos c a now) = true := by
    simp [keyMatch, newRecord]
  have hdb' : (add_request db req pos c a now).snd =
      db ++ [newRecord db req pos c a now] := by
    simp [add_request, hany]
  refine ⟨by simp [add_request, hany], ?_, rfl, rfl⟩
  rw [hdb']
  have hperm : (get_requests (db ++ [newRecord db req pos c a now]) none).Perm
      (db ++ [newRecord db req pos c a now]) := by
    simpa [get_requests] using
      List.perm_insertionSort
        (fun x y : RequestRecord => y.status_updated_at ≤ x.status_updated_at)
        (db ++ [newRecord db req pos c a now])
  have hbase : (db ++ [newRecord db req pos c a now]).filter (keyMatch req pos)
      = [newRecord db req pos c a now] := by
    rw [List.filter_append]
    have h1 : db.filter (keyMatch req pos) = [] := by
      simp only [List.filter_eq_nil_iff]
      intro r hr
      simp [hfresh r hr]
    rw [h1]
    simp [hnew]
  have := hperm.filter (keyMatch req pos)
  rw [hbase] at this
  exact List.perm_singleton.mp this

/-- Witness for C4: inserting into the empty store. -/
theorem add_request_get_requests_spec_witness :
    (∀ r ∈ ([] : List RequestRecord), keyMatch "7" "2" r = false) ∧
    (get_requests (add_request [] "7" "2" "c" "a" 5).snd none).filter
        (keyMatch "7" "2") = [newRecord [] "7" "2" "c" "a" 5] :=
  ⟨by simp, (add_request_get_requests_spec [] "7" "2" "c" "a" 5 (by simp)).2.1⟩

/-- C5: a duplicate `add_request` on a store holding exactly one record with
the key fails with `conflict`, leaves the store unchanged, and the store still
holds exactly one record with the key. -/
theorem add_request_conflict_spec (db : List RequestRecord)
    (req pos c a : String) (now : Int)
    (hdup : (db.filter (keyMatch req pos)).length = 1) :
    (add_request db req pos c a now).fst = Except.error DBError.conflict ∧
    (add_request db req pos c a now).snd = db ∧
    ((add_request db req pos c a now).snd.filter (keyMatch req pos)).length
      = 1 := by
  have hne : db.filter (keyMatch req pos) ≠ [] := by
    intro hnil
    rw [hnil] at hdup
    simp at hdup
  obtain ⟨r, hr⟩ := List.exists_mem_of_ne_nil _ hne
  have hmem := List.mem_filter.mp hr
  have hany : db.any (keyMatch req pos) = true :=
    List.any_eq_true.mpr ⟨r, hmem.1, hmem.2⟩
  refine ⟨by simp [add_request, hany], by simp [add_request, hany], ?_⟩
  simpa [add_request, hany] using hdup

/-- Witness for C5: duplicating the single stored record. -/
theorem add_request_conflict_spec_witness :
    (([rDelayed].filter (keyMatch "1" "1")).length = 1) ∧
    (add_request [rDelayed] "1" "1" "c" "a" 50).fst =
      Except.error DBError.conflict ∧
    (add_request [rDelayed] "1" "1" "c" "a" 50).snd = [rDelayed] :=
  ⟨by decide,
   (add_request_conflict_spec [rDelayed] "1" "1" "c" "a" 50 (by decide)).1,
   (add_request_conflict_spec [rDelayed] "1" "1" "c" "a" 50 (by decide)).2.1⟩

/-- Zipping a list with its image under a map pairs every element with its
image. -/
theorem zip_map_self {α : Type _} (g : α → α) (l : List α) :
    l.zip (l.map g) = l.map fun a => (a, g a) := by
  simpa using List.zip_map' id g l

/-- C3: a positioned `update_status` rewrites exactly the records matching the
`(request_number, position_number)` pair (at most one when the store has at
most one such record), an unpositioned one rewrites exactly the records
sharing `request_number`, and the returned boolean is true iff some record
matched the WHERE scope. -/
theorem update_status_scope_spec (db : List RequestRecord) (req s p : String)
    (now : Int) :
    (∀ pr ∈ db.zip (update_status db req s (some p) now).snd,
       pr.snd = if keyMatch req p pr.fst then
         { pr.fst with status := s, status_updated_at := now } else pr.fst) ∧
    (∀ pr ∈ db.zip (update_status db req s none now).snd,
       pr.snd = if reqMatch req pr.fst then
         { pr.fst with status := s, status_updated_at := now } else pr.fst) ∧
    (db.countP (keyMatch req p) ≤ 1 →
       (db.zip (update_status db req s (some p) now).snd).countP
         (fun pr => decide (pr.snd ≠ pr.fst)) ≤ 1) ∧
    ((update_status db req s (some p) now).fst = true ↔
       ∃ r ∈ db, keyMatch req p r = true) ∧
    ((update_status db req s none now).fst = true ↔
       ∃ r ∈ db, reqMatch req r = true) := by
  have hz : ∀ pos : Option String,
      db.zip (update_status db req s pos now).snd =
        db.map fun r => (r, if whereScope req pos r then
          { r with status := s, status_updated_at := now } else r) := by
    intro pos
    simpa [update_status] using
      zip_map_self (fun r => if whereScope req pos r then
        { r with status := s, status_updated_at := now } else r) db
  refine ⟨?_, ?_, ?_, ?_, ?_⟩
  · intro pr hpr
    rw [hz (some p)] at hpr
    obtain ⟨r, _, rfl⟩ := List.mem_map.mp hpr
    simp [whereScope]
  · intro pr hpr
    rw [hz none] at hpr
    obtain ⟨r, _, rfl⟩ := List.mem_map.mp hpr
    simp [whereScope]
  · intro hu
    rw [hz (some p), List.countP_map]
    refine le_trans (List.countP_mono_left ?_) hu
    intro r _ hne
    by_contra hk
    rw [Bool.not_eq_true] at hk
    have hfix : whereScope req (some p) r = false := hk
    simp [Function.comp, hfix] at hne
  · simp [update_status, List.any_eq_true, whereScope]
  · simp [update_status, List.any_eq_true, whereScope]

/-- Witness for C3: a one-record store, positioned update. -/
theorem update_status_scope_spec_witness :
    ([rDelayed].countP (keyMatch "1" "1") ≤ 1) ∧
    (([rDelayed].zip (update_status [rDelayed] "1" "s" (some "1") 7).snd).countP
       (fun pr => decide (pr.snd ≠ pr.fst)) ≤ 1) ∧
    (update_status [rDelayed] "1" "s" (some "1") 7).fst = true :=
  ⟨by decide,
   (update_status_scope_spec [rDelayed] "1" "s" "1" 7).2.2.1 (by decide),
   (update_status_scope_spec [rDelayed] "1" "s" "1" 7).2.2.2.1.mpr
     ⟨rDelayed, by decide, by decide⟩⟩

/-- C2 counterexample: `update_comment` matches the stored record (request
"1", no position) and rewrites its comment, yet its `status_updated_at` stays
at the old value 39 — the `UPDATE` statement of `update_comment` never
mentions that column, so it cannot equal the processing time for every call
time as the claim demands. -/
theorem update_comment_timestamp_counterexample :
    ¬ ∀ now : Int,
        (update_comment [rDelayed] "1" "c" none "Робот").snd.map
          (fun r => r.status_updated_at) = [now] := by
  intro h
  exact absurd (h 1) (by decide)

/-- C2 (amended): every record matched by `update_status` gets
`status_updated_at = now` (the processing time, independent of any message
timestamp) and unmatched records keep theirs, while `update_comment` leaves
`status_updated_at` of every record unchanged. -/
theorem status_timestamp_spec (db : List RequestRecord) (req s c au : String)
    (pos : Option String) (now : Int) :
    (∀ pr ∈ db.zip (update_status db req s pos now).snd,
       (whereScope req pos pr.fst = true → pr.snd.status_updated_at = now) ∧
       (whereScope req pos pr.fst = false →
         pr.snd.status_updated_at = pr.fst.status_updated_at)) ∧
    (∀ pr ∈ db.zip (update_comment db req c pos au).snd,
       pr.snd.status_updated_at = pr.fst.status_updated_at) := by
  constructor
  · intro pr hpr
    have hz : db.zip (update_status db req s pos now).snd =
        db.map fun r => (r, if whereScope req pos r then
          { r with status := s, status_updated_at := now } else r) := by
      simpa [update_status] using
        zip_map_self (fun r => if whereScope req pos r then
          { r with status := s, status_updated_at := now } else r) db
    rw [hz] at hpr
    obtain ⟨r, _, rfl⟩ := List.mem_map.mp hpr
    constructor
    · intro hw
      simp [hw]
    · intro hw
      simp [hw]
  · intro pr hpr
    have hz : db.zip (update_comment db req c pos au).snd =
        db.map fun r => (r, if whereScope req pos r then
          { r with comment := some c, comment_author := some au } else r) := by
      simpa [update_comment] using
        zip_map_self (fun r => if whereScope req pos r then
          { r with comment := some c, comment_author := some au } else r) db
    rw [hz] at hpr
    obtain ⟨r, _, rfl⟩ := List.mem_map.mp hpr
    by_cases hw : whereScope req pos r <;> simp [hw]

/-- Concrete pair fed to the C2 witness: the stored record and its image
under a status update performed at time 77. -/
def prW : RequestRecord × RequestRecord :=
  (rDelayed, { rDelayed with status := "s", status_updated_at := 77 })

/-- Witness for the amended C2: a status write at time 77 stamps the matched
record with 77, and a comment write leaves the timestamp at 39. -/
theorem status_timestamp_spec_witness :
    (prW ∈ [rDelayed].zip (update_status [rDelayed] "1" "s" none 77).snd) ∧
    whereScope "1" none prW.fst = true ∧
    prW.snd.status_updated_at = 77 ∧
    ((update_comment [rDelayed] "1" "c" none "a").snd.map
      (fun r => r.status_updated_at)) = [39] :=
  ⟨by decide, by decide,
   ((status_timestamp_spec [rDelayed] "1" "s" "c" "a" none 77).1 prW
      (by decide)).1 (by decide),
   by decide⟩

/-!
Text processing from `mail_checker.py`.  Strings are handled through their
`List Char` data; `str.lower` is modelled on the alphabets the sources use
(ASCII letters plus the Cyrillic block А..Я/Ё), and the `\d` / `[^0-9]`
classes of the two regular expressions as ASCII decimal digits, which covers
every string occurring in the repository.
-/

/-- Python `str.lower` on one character (ASCII + Cyrillic). -/
def charLower (c : Char) : Char :=
  if c.toNat ≥ 65 ∧ c.toNat ≤ 90 then Char.ofNat (c.toNat + 32)
  else if c.toNat ≥ 0x410 ∧ c.toNat ≤ 0x42F then Char.ofNat (c.toNat + 0x20)
  else if c.toNat = 0x401 then Char.ofNat 0x451
  else c

/-- Python `str.lower`. -/
def strLower (s : String) : String :=
  String.mk (s.data.map charLower)

/-- `leadsWith needle cs`: `needle` starts the character list `cs`. -/
def leadsWith : List Char → List Char → Bool
  | [], _ => true
  | _ :: _, [] => false
  | a :: as, b :: bs => a == b && leadsWith as bs

/-- `containsSeq needle cs`: `needle` occurs contiguously inside `cs`
(Python's `needle in haystack`). -/
def containsSeq (needle : List Char) : List Char → Bool
  | [] => leadsWith needle []
  | c :: cs => leadsWith needle (c :: cs) || containsSeq needle cs

/-- Python `needle in haystack` on strings. -/
def strContains (haystack needle : String) : Bool :=
  containsSeq needle.data haystack.data

/-- `STATUS_KEYWORDS` from `mail_checker.py`: a Python dict, which iterates
in declaration order — embedded as an explicit ordered association list. -/
def STATUS_KEYWORDS : List (String × List String) :=
  [("заявка принята", ["принят", "принята", "подтвержд"]),
   ("подрядчик в пути", ["в пути", "выех"]),
   ("подрядчик на месте", ["на месте", "прибыл"]),
   ("подрядчик убыл", ["убыл", "завершил", "законч"])]

/-- One dictionary entry fires when any of its keyword substrings occurs in
the lowered text. -/
def entryHit (lowered : String) (e : String × List String) : Bool :=
  e.snd.any fun k => strContains lowered k

/-- The `for status, keywords in STATUS_KEYWORDS.items()` loop of
`_detect_status`. -/
def detectFrom (lowered : String) : List (String × List String) → Option String
  | [] => none
  | e :: rest => if entryHit lowered e then some e.fst else detectFrom lowered rest

/-- `mail_checker._detect_status`: lower the text once, scan the keyword
dictionary in declaration order, return the first entry that fires. -/
def detect_status (text : String) : Option String :=
  detectFrom (strLower text) STATUS_KEYWORDS

/-- After a literal alternative matched, the regex tail `[^0-9]*(\d+)`:
greedily skip non-digits, then require at least one digit and capture the
digit run. -/
def digitsAfter (cs : List Char) : Option (List Char) :=
  let rest := cs.dropWhile fun c => !c.isDigit
  if rest.isEmpty then none else some (rest.takeWhile Char.isDigit)

/-- Case-insensitive literal at the head of the text; returns the remainder
after the literal (regex alternatives are stored lower-case). -/
def leadRem : List Char → List Char → Option (List Char)
  | [], cs => some cs
  | _ :: _, [] => none
  | a :: as, c :: cs => if charLower c == a then leadRem as cs else none

/-- Try the alternation's literals in order at a fixed start position, each
followed by `[^0-9]*(\d+)`. -/
def litNum : List (List Char) → List Char → Option (List Char)
  | [], _ => none
  | lit :: rest, cs =>
    match leadRem lit cs with
    | some rem =>
      match digitsAfter rem with
      | some n => some n
      | none => litNum rest cs
    | none => litNum rest cs

/-- `re.search` for the pattern family `(?:lit₁|lit₂|…)[^0-9]*(\d+)` with
`re.IGNORECASE`: leftmost start position wins. -/
def searchNumber (lits : List (List Char)) : List Char → Option (List Char)
  | [] => none
  | c :: cs =>
    match litNum lits (c :: cs) with
    | some n => some n
    | none => searchNumber lits cs

/-- The alternatives of `REQUEST_RE = (?:заявк[аи]|req)[^0-9]*(\d+)`. -/
def REQUEST_LITS : List (List Char) :=
  ["заявка".data, "заявки".data, "req".data]

/-- The alternatives of `POSITION_RE = (?:позици[яи]|pos)[^0-9]*(\d+)`. -/
def POSITION_LITS : List (List Char) :=
  ["позиция".data, "позиции".data, "pos".data]

/-- `PATTERN.search(text)` returning the captured digit group. -/
def search_str (lits : List (List Char)) (s : String) : Option String :=
  (searchNumber lits s.data).map fun cs => String.mk cs

/-- `mail_checker._extract_numbers`: scan subject then body; within each
field the first match wins and later texts are not consulted. -/
def extract_numbers (subject body : String) : Option String × Option String :=
  let step := fun (acc : Option String × Option String) (text : String) =>
    ((match acc.fst with
      | none => search_str REQUEST_LITS text
      | some x => some x),
     (match acc.snd with
      | none => search_str POSITION_LITS text
      | some x => some x))
  step (step (none, none) subject) body

/-- Python `str.strip()` (whitespace at both ends). -/
def pyStrip (s : String) : String :=
  String.mk
    (((s.data.dropWhile Char.isWhitespace).reverse.dropWhile
        Char.isWhitespace).reverse)

/-- `body.splitlines()[0]`: the text up to the first line break (the
repository's fixture bodies are single-line). -/
def firstLineOf (s : String) : String :=
  String.mk (s.data.takeWhile fun c => c != '\n')

/-- `mail_checker._compose_comment`: subject plus the first body line joined
by " - ", empty halves dropped, with a placeholder if both are empty. -/
def composeComment (subject body : String) : String :=
  let subject := pyStrip subject
  let body := pyStrip body
  let snippet := if body == "" then "" else firstLineOf body
  let parts := [subject, snippet].filter fun v => v != ""
  if parts.isEmpty then "Информация из письма не распознана"
  else String.intercalate " - " parts

/-- First-match characterization of the keyword scan: it answers `some s`
exactly when the dictionary splits into a prefix of non-firing entries, a
firing entry carrying `s`, and a remainder. -/
theorem detectFrom_eq_some (lowered s : String)
    (l : List (String × List String)) :
    detectFrom lowered l = some s ↔
      ∃ l₁ e l₂, l = l₁ ++ e :: l₂ ∧ e.fst = s ∧ entryHit lowered e = true ∧
        ∀ e' ∈ l₁, entryHit lowered e' = false := by
  induction l with
  | nil =>
    constructor
    · intro h
      simp [detectFrom] at h
    · rintro ⟨l₁, e, l₂, happ, -, -, -⟩
      cases l₁ <;> simp at happ
  | cons hd tl ih =>
    by_cases hh : entryHit lowered hd = true
    · simp only [detectFrom, hh, if_pos]
      constructor
      · intro h
        exact ⟨[], hd, tl, rfl, (Option.some_inj.mp h), hh, by simp⟩
      · rintro ⟨l₁, e, l₂, happ, hfst, hhit, hmiss⟩
        cases l₁ with
        | nil =>
          simp at happ
          obtain ⟨rfl, rfl⟩ := happ
          rw [hfst]
        | cons x xs =>
          simp at happ
          obtain ⟨rfl, -⟩ := happ
          have := hmiss hd (by simp)
          rw [this] at hh
          exact absurd hh (by simp)
    · rw [Bool.not_eq_true] at hh
      rw [detectFrom, if_neg (by simp [hh]), ih]
      constructor
      · rintro ⟨l₁, e, l₂, happ, hfst, hhit, hmiss⟩
        refine ⟨hd :: l₁, e, l₂, by rw [happ]; rfl, hfst, hhit, ?_⟩
        intro e' he'
        rcases List.mem_cons.mp he' with rfl | h
        · exact hh
        · exact hmiss e' h
      · rintro ⟨l₁, e, l₂, happ, hfst, hhit, hmiss⟩
        cases l₁ with
        | nil =>
          simp at happ
          obtain ⟨rfl, rfl⟩ := happ
          rw [hhit] at hh
          exact absurd hh (by simp)
        | cons x xs =>
          simp at happ
          obtain ⟨rfl, rfl⟩ := happ
          exact ⟨xs, e, l₂, rfl, hfst, hhit,
            fun e' he' => hmiss e' (by simp [he'])⟩

/-- The keyword scan answers `none` exactly when no entry fires. -/
theorem detectFrom_eq_none (lowered : String)
    (l : List (String × List String)) :
    detectFrom lowered l = none ↔ ∀ e ∈ l, entryHit lowered e = false := by
  induction l with
  | nil => simp [detectFrom]
  | cons hd tl ih =>
    by_cases hh : entryHit lowered hd = true
    · simp [detectFrom, hh]
    · rw [Bool.not_eq_true] at hh
      rw [detectFrom, if_neg (by simp [hh]), ih]
      simp [hh]

/-- C7: `_detect_status` lowers the text once and scans `STATUS_KEYWORDS` in
declaration order: it returns `some s` exactly when the first entry (in
declaration order) any of whose substrings occurs in the lowered text carries
the canonical status `s`, and `none` exactly when no entry's substring occurs
at all. -/
theorem detect_status_spec (text : String) :
    (∀ s : String, detect_status text = some s ↔
       ∃ l₁ e l₂, STATUS_KEYWORDS = l₁ ++ e :: l₂ ∧ e.fst = s ∧
         entryHit (strLower text) e = true ∧
         ∀ e' ∈ l₁, entryHit (strLower text) e' = false) ∧
    (detect_status text = none ↔
       ∀ e ∈ STATUS_KEYWORDS, entryHit (strLower text) e = false) :=
  ⟨fun s => detectFrom_eq_some (strLower text) s STATUS_KEYWORDS,
   detectFrom_eq_none (strLower text) STATUS_KEYWORDS⟩

/-- Witness for C7: on a text hitting the second dictionary entry (via
"выех") while the first entry stays silent, the scan returns the second
entry's canonical status. -/
theorem detect_status_spec_witness :
    detect_status "Подрядчик выехал" = some "подрядчик в пути" :=
  ((detect_status_spec "Подрядчик выехал").1 "подрядчик в пути").mpr
    ⟨[("заявка принята", ["принят", "принята", "подтвержд"])],
     ("подрядчик в пути", ["в пути", "выех"]),
     [("подрядчик на месте", ["на месте", "прибыл"]),
      ("подрядчик убыл", ["убыл", "завершил", "законч"])],
     rfl, rfl, by decide, by decide⟩

/-- C8: the sample contractor text yields request number "101", position
number "12" and the detected status "подрядчик в пути". -/
theorem classify_sample_message :
    extract_numbers
        "Заявка №101. Позиция 12. Подрядчик в пути, ожидаем прибытие через 30 минут."
        "" = (some "101", some "12") ∧
    detect_status
        "Заявка №101. Позиция 12. Подрядчик в пути, ожидаем прибытие через 30 минут."
      = some "подрядчик в пути" :=
  ⟨by decide, by decide⟩

/-!
Backend fallback chain (`mail_checker.py`).  The two live adapters talk to
external mail systems; they enter the embedding as an environment recording
whether the OAuth settings load (all four credential variables present) and
which message sequences the adapters would yield.  The fixture adapter is
embedded concretely from `FAKE_CONTRACTOR_MESSAGES`.
-/

/-- The normalized message record (`mail_checker.ContractorMessage`);
`received_at` as an integer timestamp. -/
structure ContractorMessage where
  request_number : String
  position_number : Option String
  detected_status : Option String
  comment : String
  received_at : Int
  sender : String
  subject : String
deriving DecidableEq, Repr

/-- One fixture entry of `FAKE_CONTRACTOR_MESSAGES`. -/
structure FakeMail where
  subject : String
  body : String
  sender : String
  received : Int
deriving DecidableEq, Repr

/-- The three fixture emails (`received` encoded as YYYYMMDDHHMM). -/
def FAKE_CONTRACTOR_MESSAGES : List FakeMail :=
  [⟨"Заявка 101: подрядчик выехал",
    "Заявка №101. Позиция 12. Подрядчик в пути, ожидаем прибытие через 30 минут.",
    "contractor@example.com", 202509271015⟩,
   ⟨"REQ-101 подрядчик на месте",
    "Подрядчик прибыл на позицию 12. Проверка оборудования.",
    "contractor@example.com", 202509271105⟩,
   ⟨"REQ-102 завершено",
    "Позиция 8. Работы выполнены, подрядчик убыл.",
    "contractor@example.com", 202509271240⟩]

/-- One loop iteration of `_iter_fake_messages`: numbers from subject+body,
status from the concatenated text, comment from the composer. -/
def fakeToMessage (f : FakeMail) : ContractorMessage :=
  let nums := extract_numbers f.subject f.body
  { request_number := nums.fst.getD ""
    position_number := nums.snd
    detected_status := detect_status (f.subject ++ " " ++ f.body)
    comment := composeComment f.subject f.body
    received_at := f.received
    sender := f.sender
    subject := f.subject }

/-- `mail_checker._iter_fake_messages`. -/
def iter_fake_messages : List ContractorMessage :=
  FAKE_CONTRACTOR_MESSAGES.map fakeToMessage

/-- `VALID_BACKENDS` from `mail_checker.py` (a set; only membership is
used). -/
def VALID_BACKENDS : List String := ["auto", "oauth", "com", "fake"]

/-- The `mapping` dict of `_resolve_backend_sequence` (looked up only at
valid keys). -/
def backendOrder (b : String) : List String :=
  if b = "auto" then ["oauth", "com"]
  else if b = "oauth" then ["oauth"]
  else if b = "com" then ["com"]
  else ["fake"]

/-- `explicit_backend or os.getenv(BACKEND_ENV_NAME, BACKEND_AUTO)`: the
Python `or` treats an empty explicit argument as absent. -/
def effectiveRaw (explicit envVar : Option String) : String :=
  match explicit with
  | some s => if s = "" then envVar.getD "auto" else s
  | none => envVar.getD "auto"

/-- `mail_checker._resolve_backend_sequence`; the second component counts the
warnings it logs (one for an unknown backend name). -/
def resolve_backend_sequence (use_fake : Bool) (explicit envVar : Option String) :
    List String × Nat :=
  if use_fake then (["fake"], 0)
  else
    let backend := strLower (pyStrip (effectiveRaw explicit envVar))
    if backend ∈ VALID_BACKENDS then (backendOrder backend, 0)
    else (backendOrder "auto", 1)

/-- What the live world would feed the chain: whether
`_load_outlook_settings` succeeds, and the sequences the two live adapters
yield when consulted. -/
structure MailEnv where
  oauthSettings : Bool
  oauthMessages : List ContractorMessage
  comMessages : List ContractorMessage

/-- The messages a candidate contributes when the chain consults it: the
fixture list for `fake`; the OAuth adapter's yield when its settings load
(nothing otherwise, the candidate is skipped); the COM adapter's yield. -/
def candidateYield (env : MailEnv) (c : String) : List ContractorMessage :=
  if c = "fake" then iter_fake_messages
  else if c = "oauth" then (if env.oauthSettings then env.oauthMessages else [])
  else if c = "com" then env.comMessages
  else []

/-- The candidate loop of `fetch_contractor_messages`: returns the yielded
messages, the candidates actually consulted (in order), and the
`yielded_any` flag. -/
def fetchLoop (env : MailEnv) : List String →
    List ContractorMessage × List String × Bool
  | [] => ([], [], false)
  | c :: rest =>
    if c = "fake" then (iter_fake_messages, [c], true)
    else
      let msgs := candidateYield env c
      if msgs.isEmpty then
        let r := fetchLoop env rest
        (r.fst, c :: r.snd.fst, r.snd.snd)
      else (msgs, [c], true)

/-- `mail_checker.fetch_contractor_messages`: resolve the candidate order,
run the loop, and log one warning when nothing was yielded.  Components:
messages, consulted candidates, chain warnings. -/
def fetch_contractor_messages (env : MailEnv) (use_fake : Bool)
    (backend envVar : Option String) :
    List ContractorMessage × List String × Nat :=
  let resolved := resolve_backend_sequence use_fake backend envVar
  let r := fetchLoop env resolved.fst
  (r.fst, r.snd.fst, if r.snd.snd then 0 else 1)

/-- `mail_checker.process_mailbox`: apply each fetched message to the store
and collect one outcome line per message.  All update calls of one pass share
the clock reading `now`.  Components: outcome lines, final store, warnings
(the chain's plus one per undecodable message). -/
def process_mailbox (env : MailEnv) (db : List RequestRecord) (now : Int)
    (use_fake : Bool) (backend envVar : Option String) :
    List String × List RequestRecord × Nat :=
  let fetched := fetch_contractor_messages env use_fake backend envVar
  let step := fun (acc : List String × List RequestRecord × Nat)
      (m : ContractorMessage) =>
    let db := acc.snd.fst
    if m.request_number = "" then
      (acc.fst ++ ["Пропуск письма от " ++ m.sender ++ ": не найден номер заявки"],
       db, acc.snd.snd + 1)
    else
      let statusRes : Bool × List RequestRecord :=
        match m.detected_status with
        | some st => update_status db m.request_number st m.position_number now
        | none => (false, db)
      let commentRes : Bool × List RequestRecord :=
        if m.comment = "" then (false, statusRes.snd)
        else update_comment statusRes.snd m.request_number m.comment
          m.position_number ROBOT_AUTHOR
      let parts :=
        ["Заявка " ++ m.request_number,
         (match m.position_number with
          | some p => "позиция " ++ p
          | none => ""),
         (match m.detected_status with
          | some st => if statusRes.fst then "статус -> " ++ st else ""
          | none => ""),
         if commentRes.fst then "комментарий обновлён" else ""]
      let nonempty := parts.filter fun v => v != ""
      let summary :=
        if nonempty.isEmpty then
          "Данные из письма не применены (subject=" ++ m.subject ++
            ", request=" ++ m.request_number ++ ")"
        else String.intercalate "; " nonempty
      (acc.fst ++ [summary], commentRes.snd, acc.snd.snd)
  let r := fetched.fst.foldl step ([], db, 0)
  (r.fst, r.snd.fst, fetched.snd.snd + r.snd.snd)

/-!
Notifier (`notifier.py`).  The HTTP world enters as an abstract outcome of
the single `urlopen` call: either a transport/parse exception, or a response
with a status code and the optional boolean `ok` field of the decoded JSON
body.  `token`/`chat_id` are the values after the `arg or config` fallback,
with `""` standing for both `None` and the empty string (both falsy).
-/

/-- Outcome of the one `urlopen(...)` call in `send_message`. -/
inductive HttpOutcome
  | exn
  | response (code : Int) (okField : Option Bool)
deriving DecidableEq, Repr

/-- Observable result of `send_message`: the returned boolean, how many HTTP
delivery attempts were made, and whether the text was logged through the
`[FAKE TELEGRAM]` branch. -/
structure SendOutcome where
  ok : Bool
  attempts : Nat
  logged_text : Bool
deriving DecidableEq, Repr

/-- `notifier.send_message`: unconfigured credentials log the text and
return false without any HTTP attempt; otherwise one attempt is made, any
exception or non-200 code yields false, and a 200 response returns
`result.get("ok", True)` — the `ok` field, defaulting to true when absent. -/
def send_message (token chat_id : String) (http : HttpOutcome) : SendOutcome :=
  if token = "" ∨ chat_id = "" then ⟨false, 0, true⟩
  else
    match http with
    | HttpOutcome.exn => ⟨false, 1, false⟩
    | HttpOutcome.response code okField =>
      if code ≠ 200 then ⟨false, 1, false⟩
      else ⟨okField.getD true, 1, false⟩

/-- The fixture adapter always yields its three sample messages. -/
theorem iter_fake_ne_nil : iter_fake_messages ≠ [] := by decide

/-- When no candidate yields anything the loop consults every candidate, in
order, and reports no yield. -/
theorem fetchLoop_all_empty (env : MailEnv) (l : List String)
    (h : ∀ c ∈ l, candidateYield env c = []) :
    fetchLoop env l = ([], l, false) := by
  induction l with
  | nil => rfl
  | cons c rest ih =>
    have hc := h c (by simp)
    have hfake : c ≠ "fake" := by
      intro hceq
      rw [hceq, candidateYield, if_pos rfl] at hc
      exact iter_fake_ne_nil hc
    rw [fetchLoop, if_neg hfake]
    simp only [hc, List.isEmpty_nil, if_pos]
    rw [ih (fun c' h' => h c' (by simp [h']))]

/-- The first candidate with a non-empty yield short-circuits the loop: the
chain returns exactly its messages, and no candidate after it is
consulted. -/
theorem fetchLoop_first_hit (env : MailEnv) (l₁ : List String) (c : String)
    (l₂ : List String) (hmiss : ∀ c' ∈ l₁, candidateYield env c' = [])
    (hc : candidateYield env c ≠ []) :
    fetchLoop env (l₁ ++ c :: l₂) = (candidateYield env c, l₁ ++ [c], true) := by
  induction l₁ with
  | nil =>
    simp only [List.nil_append]
    by_cases hfake : c = "fake"
    · subst hfake
      rw [fetchLoop, if_pos rfl]
      simp [candidateYield]
    · rw [fetchLoop, if_neg hfake]
      have hne : (candidateYield env c).isEmpty = false := by
        cases hyc : candidateYield env c with
        | nil => exact absurd hyc hc
        | cons a l => rfl
      simp [hne]
  | cons x xs ih =>
    have hx := hmiss x (by simp)
    have hxfake : x ≠ "fake" := by
      intro hxeq
      rw [hxeq, candidateYield, if_pos rfl] at hx
      exact iter_fake_ne_nil hx
    rw [List.cons_append, fetchLoop, if_neg hxfake]
    simp only [hx, List.isEmpty_nil, if_pos]
    rw [ih (fun c' h' => hmiss c' (by simp [h']))]
    rfl

/-- C6: the chain tries its resolved candidates in order and stops at the
first one yielding a message — it returns exactly that candidate's messages
and consults nothing after it; when every candidate yields nothing,
`fetch_contractor_messages` yields nothing with exactly one warning and
`process_mailbox` returns the empty outcome list (store untouched, one
warning, a plain return — no exception). -/
theorem backend_chain_spec (env : MailEnv) (use_fake : Bool)
    (backend envVar : Option String) (db : List RequestRecord) (now : Int) :
    (∀ l₁ c l₂,
       (resolve_backend_sequence use_fake backend envVar).fst = l₁ ++ c :: l₂ →
       (∀ c' ∈ l₁, candidateYield env c' = []) →
       candidateYield env c ≠ [] →
       (fetch_contractor_messages env use_fake backend envVar).fst =
         candidateYield env c ∧
       (fetch_contractor_messages env use_fake backend envVar).snd.fst =
         l₁ ++ [c]) ∧
    ((∀ c ∈ (resolve_backend_sequence use_fake backend envVar).fst,
        candidateYield env c = []) →
       (fetch_contractor_messages env use_fake backend envVar).fst = [] ∧
       (fetch_contractor_messages env use_fake backend envVar).snd.snd = 1 ∧
       process_mailbox env db now use_fake backend envVar = ([], db, 1)) := by
  constructor
  · intro l₁ c l₂ hres hmiss hc
    have hloop := fetchLoop_first_hit env l₁ c l₂ hmiss hc
    constructor <;> simp [fetch_contractor_messages, hres, hloop]
  · intro hall
    have hloop := fetchLoop_all_empty env _ hall
    have hfetch : fetch_contractor_messages env use_fake backend envVar =
        ([], (resolve_backend_sequence use_fake backend envVar).fst, 1) := by
      simp [fetch_contractor_messages, hloop]
    refine ⟨by simp [hfetch], by simp [hfetch], ?_⟩
    simp [process_mailbox, hfetch]

/-- A world where the OAuth settings are missing and both live adapters are
silent. -/
def envEmpty : MailEnv := ⟨false, [], []⟩

/-- Witness for C6: with an explicit silent `com` backend the pass returns
the empty outcome list with one warning; with fixtures requested, the chain
stops at the fixture source. -/
theorem backend_chain_spec_witness :
    (∀ c ∈ (resolve_backend_sequence false (some "com") none).fst,
       candidateYield envEmpty c = []) ∧
    process_mailbox envEmpty [rDelayed] 5 false (some "com") none =
      ([], [rDelayed], 1) ∧
    (resolve_backend_sequence true none none).fst = [] ++ "fake" :: [] ∧
    candidateYield envEmpty "fake" ≠ [] ∧
    (fetch_contractor_messages envEmpty true none none).fst =
      candidateYield envEmpty "fake" ∧
    (fetch_contractor_messages envEmpty true none none).snd.fst = ["fake"] :=
  ⟨by decide,
   ((backend_chain_spec envEmpty false (some "com") none [rDelayed] 5).2
     (by decide)).2.2,
   by decide, by decide,
   ((backend_chain_spec envEmpty true none none [rDelayed] 5).1 [] "fake" []
     (by decide) (by decide) (by decide)).1,
   by simpa using ((backend_chain_spec envEmpty true none none [rDelayed] 5).1
     [] "fake" [] (by decide) (by decide) (by decide)).2⟩

/-- C10 counterexample: `"OAUTH"` is outside the literal valid set
`{auto, oauth, com, fake}`, yet backend resolution does not fall back to the
automatic order and logs no warning — the code lower-cases the name first,
so `"OAUTH"` resolves to the single-candidate `[oauth]` order. -/
theorem resolve_backend_counterexample :
    resolve_backend_sequence false (some "OAUTH") none = (["oauth"], 0) ∧
    "OAUTH" ∉ VALID_BACKENDS :=
  ⟨by decide, by decide⟩

/-- C10 (amended): when the effective backend name — the explicit argument
if non-empty, else the environment value, else "auto" — normalizes (strip
then lower-case) to something outside the valid set, resolution returns
normally with one warning and the automatic order `[oauth, com]`, exactly as
for "auto", and never selects the fixture source. -/
theorem resolve_backend_invalid_spec (explicit envVar : Option String)
    (hinv : strLower (pyStrip (effectiveRaw explicit envVar)) ∉ VALID_BACKENDS) :
    resolve_backend_sequence false explicit envVar = (["oauth", "com"], 1) ∧
    (resolve_backend_sequence false explicit envVar).fst =
      (resolve_backend_sequence false (some "auto") none).fst ∧
    "fake" ∉ (resolve_backend_sequence false explicit envVar).fst := by
  have h1 : resolve_backend_sequence false explicit envVar =
      (backendOrder "auto", 1) := by
    simp [resolve_backend_sequence, hinv]
  rw [h1]
  refine ⟨by decide, by decide, by decide⟩

/-- Witness for C10: the explicit name "bogus". -/
theorem resolve_backend_invalid_spec_witness :
    (strLower (pyStrip (effectiveRaw (some "bogus") none)) ∉ VALID_BACKENDS) ∧
    resolve_backend_sequence false (some "bogus") none = (["oauth", "com"], 1) :=
  ⟨by decide, (resolve_backend_invalid_spec (some "bogus") none (by decide)).1⟩

/-- C9 counterexample: with credentials configured, an HTTP 200 response
whose JSON body has no `ok` field at all makes `send_message` return true —
`result.get("ok", True)` defaults to success — refuting "returns true only
when ... the `ok` field indicates success". -/
theorem send_message_ok_default_counterexample :
    (send_message "t" "c" (HttpOutcome.response 200 none)).ok = true ∧
    HttpOutcome.response 200 none ≠ HttpOutcome.response 200 (some true) :=
  ⟨by decide, by decide⟩

/-- C9 (amended): without credentials `send_message` logs the text and
returns false with zero HTTP attempts; with credentials it makes exactly one
attempt per call, and returns true exactly when the call produced an HTTP 200
response whose `ok` field is absent or indicates success (absent defaults to
success); exceptions and non-200 codes give false. -/
theorem send_message_spec (token chat_id : String) (http : HttpOutcome) :
    (send_message token chat_id http).attempts ≤ 1 ∧
    (token = "" ∨ chat_id = "" →
       send_message token chat_id http =
         { ok := false, attempts := 0, logged_text := true }) ∧
    (token ≠ "" → chat_id ≠ "" →
       (send_message token chat_id http).attempts = 1 ∧
       ((send_message token chat_id http).ok = true ↔
          ∃ okField : Option Bool, http = HttpOutcome.response 200 okField ∧
            okField.getD true = true)) := by
  by_cases hcfg : token = "" ∨ chat_id = ""
  · refine ⟨?_, fun _ => ?_, fun h1 h2 => absurd hcfg (by tauto)⟩ <;>
      simp [send_message, hcfg]
  · refine ⟨?_, fun h => absurd h hcfg, fun _ _ => ⟨?_, ?_⟩⟩
    · cases http with
      | exn => simp [send_message, hcfg]
      | response code okField =>
        by_cases hc : code = 200 <;> simp [send_message, hcfg, hc]
    · cases http with
      | exn => simp [send_message, hcfg]
      | response code okField =>
        by_cases hc : code = 200 <;> simp [send_message, hcfg, hc]
    · cases http with
      | exn => simp [send_message, hcfg]
      | response code okField =>
        by_cases hc : code = 200
        · subst hc
          simp only [send_message, if_neg hcfg, ne_eq, not_true_eq_false,
            Bool.false_eq_true, if_false]
          constructor
          · intro h
            exact ⟨okField, rfl, h⟩
          · rintro ⟨f, heq, hf⟩
            injection heq with h1 h2
            rw [h2]
            exact hf
        · simp [send_message, hcfg, hc]

/-- Witness for C9: configured credentials, HTTP 200 with `ok = true`. -/
theorem send_message_spec_witness :
    (send_message "t" "c" (HttpOutcome.response 200 (some true))).attempts = 1 ∧
    (send_message "t" "c" (HttpOutcome.response 200 (some true))).ok = true :=
  ⟨((send_message_spec "t" "c" (HttpOutcome.response 200 (some true))).2.2
      (by decide) (by decide)).1,
   ((send_message_spec "t" "c" (HttpOutcome.response 200 (some true))).2.2
      (by decide) (by decide)).2.mpr ⟨some true, rfl, rfl⟩⟩

end ProjZayavki
